import Mathlib

/-!
Shallow embedding of the `chat-translation-proxy` Go program: the Hub
(registry of clients and rooms), the room lifecycle, the sliding-window
rate limiter, the TTL translation cache, and the WebSocket message-router
step.  Machine time is modeled as `Int` (Go `time.Time` instants), Go maps
as association lists keyed by `String`, and pointers to `Client`/`Room` as
values (pointer identity is recovered through the unguessable tokens).
-/

/-- Association-list model of a Go `map[string]V` read `m[k]`. -/
def mapLookup {α : Type} (m : List (String × α)) (k : String) : Option α :=
  match m with
  | [] => none
  | (k', v) :: rest => if k' = k then some v else mapLookup rest k

/-- Go `delete(m, k)`: removes the binding for `k` (no-op if absent). -/
def mapErase {α : Type} (m : List (String × α)) (k : String) : List (String × α) :=
  match m with
  | [] => []
  | (k', v) :: rest => if k' = k then mapErase rest k else (k', v) :: mapErase rest k

/-- Go map assignment `m[k] = v`: binds `k`, replacing any previous binding. -/
def mapInsert {α : Type} (m : List (String × α)) (k : String) (v : α) : List (String × α) :=
  (k, v) :: mapErase m k

theorem mapLookup_insert_self {α : Type} (m : List (String × α)) (k : String) (v : α) :
    mapLookup (mapInsert m k v) k = some v := by
  simp [mapInsert, mapLookup]

theorem mapLookup_erase_ne {α : Type} (m : List (String × α)) (k k' : String) (h : k' ≠ k) :
    mapLookup (mapErase m k) k' = mapLookup m k' := by
  induction m with
  | nil => rfl
  | cons hd tl ih =>
    cases hd with
    | mk a b =>
      by_cases hk : a = k
      · rw [mapErase, if_pos hk, mapLookup, if_neg (fun hc => h (hc.symm.trans hk)), ih]
      · by_cases ha : a = k'
        · rw [mapErase, if_neg hk, mapLookup, if_pos ha, mapLookup, if_pos ha]
        · rw [mapErase, if_neg hk, mapLookup, if_neg ha, mapLookup, if_neg ha, ih]

theorem mapLookup_erase_self {α : Type} (m : List (String × α)) (k : String) :
    mapLookup (mapErase m k) k = none := by
  induction m with
  | nil => rfl
  | cons hd tl ih =>
    cases hd with
    | mk a b =>
      by_cases hk : a = k
      · rw [mapErase, if_pos hk, ih]
      · rw [mapErase, if_neg hk, mapLookup, if_neg hk, ih]

theorem mapLookup_insert_ne {α : Type} (m : List (String × α)) (k k' : String) (v : α)
    (h : k' ≠ k) : mapLookup (mapInsert m k v) k' = mapLookup m k' := by
  rw [mapInsert, mapLookup, if_neg (fun hc => h hc.symm)]
  exact mapLookup_erase_ne m k k' h

theorem mem_mapErase {α : Type} {m : List (String × α)} {k : String}
    {p : String × α} (h : p ∈ mapErase m k) : p ∈ m := by
  induction m with
  | nil => simp [mapErase] at h
  | cons hd tl ih =>
    cases hd with
    | mk a b =>
      by_cases hk : a = k
      · rw [mapErase, if_pos hk] at h
        exact List.mem_cons_of_mem _ (ih h)
      · rw [mapErase, if_neg hk] at h
        rcases List.mem_cons.mp h with h | h
        · exact h ▸ List.mem_cons_self _ _
        · exact List.mem_cons_of_mem _ (ih h)

theorem mem_mapInsert {α : Type} {m : List (String × α)} {k : String} {v : α}
    {p : String × α} (h : p ∈ mapInsert m k v) : p = (k, v) ∨ p ∈ m := by
  rcases List.mem_cons.mp h with h | h
  · exact Or.inl h
  · exact Or.inr (mem_mapErase h)

theorem mapLookup_mem {α : Type} {m : List (String × α)} {k : String} {v : α}
    (h : mapLookup m k = some v) : (k, v) ∈ m := by
  induction m with
  | nil => simp [mapLookup] at h
  | cons hd tl ih =>
    cases hd with
    | mk a b =>
      by_cases ha : a = k
      · rw [mapLookup, if_pos ha] at h
        rw [← ha, Option.some.inj h]
        exact List.mem_cons_self _ _
      · rw [mapLookup, if_neg ha] at h
        exact List.mem_cons_of_mem _ (ih h)

/-- Lifecycle status of a room (Go `RoomStatus` string constants). -/
inductive RoomStatus
  | waiting
  | active
  | closed
  | closing
deriving DecidableEq

/-- Go `Client`: an identity token, display name, language code, and the
live-connection handle (`*websocket.Conn`), modeled as a Bool recording
whether a connection is attached. -/
structure Client where
  Token : String
  Name : String
  Language : String
  Connection : Bool
deriving DecidableEq

/-- Go `NewClient`: the token is produced by `generateToken()` (crypto
randomness); here it is a parameter.  A fresh client has no connection. -/
def NewClient (token name language : String) : Client :=
  { Token := token, Name := name, Language := language, Connection := false }

/-- Go `ChatMessage` wire/history record.  `Type_` embeds the Go field
`Type` (a Lean keyword); an empty `TranslatedContent` models the absent
(`omitempty`) optional field. -/
structure ChatMessage where
  Type_ : String
  RoomID : String
  From : String
  Content : String
  TranslatedContent : String
deriving DecidableEq

/-- Go `Room`.  `CloseTimer` (`*time.Timer`) is modeled as whether a close
deadline is currently scheduled. -/
structure Room where
  ID : String
  Customer : Option Client
  Agent : Option Client
  Status : RoomStatus
  Messages : List ChatMessage
  CloseTimer : Bool
deriving DecidableEq

/-- Go `NewRoom`: waiting, has the customer, zero values elsewhere. -/
def NewRoom (id : String) (customer : Client) : Room :=
  { ID := id, Customer := some customer, Agent := none, Status := .waiting,
    Messages := [], CloseTimer := false }

/-- Pointer comparison `c == room.Customer` from the source, recovered via
the unguessable, never-mutated token. -/
def Room.isCustomer (room : Room) (c : Client) : Bool :=
  match room.Customer with
  | some cu => cu.Token == c.Token
  | none => false

/-- The source's guard `room.Customer != nil && room.Customer.Token == token`
(used by `handleEndChat` and by the reopen step of `handleWebSocket`). -/
def customerTokenIs (room : Room) (token : String) : Bool :=
  match room.Customer with
  | some cu => cu.Token == token
  | none => false

/-- Go `RateLimiter`: per-identity recorded timestamps.  The Go map with
`nil`-slice default is a total function defaulting to `[]`. -/
structure RateLimiter where
  maxMessages : Nat
  window : Int
  limits : String → List Int

/-- Go `NewRateLimiter`. -/
def NewRateLimiter (maxMessages : Nat) (window : Int) : RateLimiter :=
  { maxMessages := maxMessages, window := window, limits := fun _ => [] }

/-- Go `RateLimiter.Allow`: prune to timestamps strictly after
`now - window` (Go `t.After(cutoff)`), reject and persist the pruned set
when the surviving count reaches `maxMessages`, else append `now` and
admit.  The source calls `time.Now()` twice (cutoff and append); both are
modeled by the single instant `now`. -/
def RateLimiter.Allow (r : RateLimiter) (token : String) (now : Int) : Bool × RateLimiter :=
  let cutoff := now - r.window
  let recent := (r.limits token).filter (fun t => decide (cutoff < t))
  if r.maxMessages ≤ recent.length then
    (false, { r with limits := fun x => if x = token then recent else r.limits x })
  else
    (true, { r with limits := fun x => if x = token then recent ++ [now] else r.limits x })

/-- Modelled from the spec's words, for comparison with the source's
`RateLimiter.Allow` (refinement check): the spec says the call "drops all
recorded timestamps for that identity older than the cutoff", i.e. a
timestamp exactly at the cutoff survives. -/
def allowSpec (r : RateLimiter) (token : String) (now : Int) : Bool × RateLimiter :=
  let cutoff := now - r.window
  let recent := (r.limits token).filter (fun t => decide (cutoff ≤ t))
  if r.maxMessages ≤ recent.length then
    (false, { r with limits := fun x => if x = token then recent else r.limits x })
  else
    (true, { r with limits := fun x => if x = token then recent ++ [now] else r.limits x })

/-- Concrete limiter for the C3 boundary counterexample: capacity 1, a
60-unit window, and one recorded timestamp at instant 0 for "id". -/
def rl0 : RateLimiter :=
  { maxMessages := 1, window := 60, limits := fun x => if x = "id" then [0] else [] }

/-- Go `strings.TrimSpace`: strip leading and trailing whitespace.
Defined over the character list so that it evaluates by kernel reduction
(`String.trim` does not). -/
def trimSpace (s : String) : String :=
  String.mk (((s.data.dropWhile Char.isWhitespace).reverse.dropWhile Char.isWhitespace).reverse)

/-- Go `cacheEntry`: a cached translation and its insertion instant. -/
structure CacheEntry where
  text : String
  createdAt : Int

/-- Go `Translator` state relevant to the embedding: the cache TTL and the
cache map (key to entry); the HTTP client, url and model only shape the
prompt sent to the external generator, which is modeled by a separate
oracle `gen : String → Option String` from prompt to reply (`none` is a
request/decode error). -/
structure Translator where
  cacheTTL : Int
  cache : String → Option CacheEntry

/-- Go `NewTranslator`: empty cache. -/
def NewTranslator (cacheTTL : Int) : Translator :=
  { cacheTTL := cacheTTL, cache := fun _ => none }

/-- Go `Translator.DetectLanguage`: builds the detection prompt and calls
the external generator; no cache involvement. -/
def Translator.DetectLanguage (gen : String → Option String) (text : String) : Option String :=
  gen ("What language is this text? Reply with ONLY the ISO language code (e.g. en, pt, es, fr): " ++ text)

/-- The translation prompt built by Go `Translator.Translate`. -/
def translationPrompt (text fromLanguage toLanguage : String) : String :=
  "Translate the following text from " ++ fromLanguage ++ " to " ++ toLanguage ++ ". Return ONLY the translation, nothing else: " ++ text

/-- The composite cache key `from:to:text` of Go `Translator.Translate`. -/
def cacheKey (text fromLanguage toLanguage : String) : String :=
  fromLanguage ++ ":" ++ toLanguage ++ ":" ++ text

/-- Go `Translator.Translate`: consult the cache under the composite key;
a hit younger than (or exactly as old as) the TTL returns the cached text
without calling the generator; otherwise call the generator with the
translation prompt and, on success, store the reply timestamped `now`.
The returned Bool records whether the external generator was invoked. -/
def Translator.Translate (t : Translator) (gen : String → Option String) (now : Int)
    (text fromLanguage toLanguage : String) : Option String × Translator × Bool :=
  let prompt := translationPrompt text fromLanguage toLanguage
  let key := cacheKey text fromLanguage toLanguage
  let hit := t.cache key
  let expired := match hit with
    | some e => decide (now - e.createdAt > t.cacheTTL)
    | none => true
  match hit, expired with
  | some e, false => (some e.text, t, false)
  | _, _ =>
    match gen prompt with
    | none => (none, t, true)
    | some s =>
      (some s, { t with cache := fun k => if k = key then some { text := s, createdAt := now } else t.cache k }, true)

/-- Second half of Go `prepareMessage` (everything after the
language-detection block), with `sender` already carrying the
possibly-just-detected language: skip translation when either language is
unknown or they agree; otherwise translate (cache-backed) and either
replace the content (customer recipient) or attach the translated field
(agent recipient); translation failure delivers the original. -/
def prepareMessageBody (t : Translator) (gen : String → Option String) (now : Int)
    (room : Room) (sender recipient : Client) (content : String) :
    ChatMessage × Client × Translator :=
  let msg : ChatMessage :=
    { Type_ := "message", RoomID := room.ID, From := sender.Name,
      Content := content, TranslatedContent := "" }
  if sender.Language = "" ∨ recipient.Language = "" ∨ sender.Language = recipient.Language then
    (msg, sender, t)
  else
    match t.Translate gen now content sender.Language recipient.Language with
    | (none, t', _) => (msg, sender, t')
    | (some tr, t', _) =>
      if room.isCustomer recipient then
        ({ msg with Content := trimSpace tr }, sender, t')
      else
        ({ msg with TranslatedContent := trimSpace tr }, sender, t')

/-- Go `prepareMessage`: build the outbound record; when the sender is the
room's customer with unknown language, detect it first (detection failure
returns the untranslated record with the sender unchanged; on success the
trimmed code is stored on the sender).  Returns the outbound record, the
(possibly language-updated) sender, and the translator state. -/
def prepareMessage (t : Translator) (gen : String → Option String) (now : Int)
    (room : Room) (sender recipient : Client) (content : String) :
    ChatMessage × Client × Translator :=
  if room.isCustomer sender ∧ sender.Language = "" then
    match Translator.DetectLanguage gen content with
    | none =>
      ({ Type_ := "message", RoomID := room.ID, From := sender.Name,
         Content := content, TranslatedContent := "" }, sender, t)
    | some lang =>
      prepareMessageBody t gen now room { sender with Language := trimSpace lang } recipient content
  else
    prepareMessageBody t gen now room sender recipient content

/-- Go `Hub`: token-keyed clients and id-keyed rooms (the mutex is the
sequential semantics of the embedding). -/
structure Hub where
  Clients : List (String × Client)
  Rooms : List (String × Room)
deriving DecidableEq

/-- Go `NewHub`. -/
def NewHub : Hub := { Clients := [], Rooms := [] }

/-- Go `Hub.AddClient`. -/
def Hub.AddClient (h : Hub) (client : Client) : Hub :=
  { h with Clients := mapInsert h.Clients client.Token client }

/-- Go `Hub.RemoveClient`: deletes the participant entry only; rooms that
still reference the token are not touched. -/
def Hub.RemoveClient (h : Hub) (token : String) : Hub :=
  { h with Clients := mapErase h.Clients token }

/-- Go `Hub.CreateRoom`: the room id is `"room_" + generateToken()` in the
source (crypto randomness); here the id is a parameter. -/
def Hub.CreateRoom (h : Hub) (roomID : String) (customer : Client) : Room × Hub :=
  let room := NewRoom roomID customer
  (room, { h with Rooms := mapInsert h.Rooms roomID room })

/-- The four distinct errors `Hub.JoinRoom` can return (the source uses
`fmt.Errorf` with four distinct messages; the spec names them `NotFound`,
`InvalidState`, `AlreadyOccupied`, `MissingCustomer`). -/
inductive JoinError
  | notFound
  | invalidState
  | alreadyOccupied
  | missingCustomer
deriving DecidableEq

/-- Go `Hub.JoinRoom`: looks the room up, checks status/agent/customer in
the source's order, then assigns the agent and activates the room. -/
def Hub.JoinRoom (h : Hub) (roomID : String) (agent : Client) :
    Except JoinError (Room × Hub) :=
  match mapLookup h.Rooms roomID with
  | none => .error .notFound
  | some room =>
    if room.Status ≠ .waiting then .error .invalidState
    else if room.Agent.isSome then .error .alreadyOccupied
    else if room.Customer.isNone then .error .missingCustomer
    else
      let room' := { room with Agent := some agent, Status := .active }
      .ok (room', { h with Rooms := mapInsert h.Rooms roomID room' })

/-- Go `Hub.GetRoom`. -/
def Hub.GetRoom (h : Hub) (roomID : String) : Option Room :=
  mapLookup h.Rooms roomID

/-- Go `Hub.GetClient`. -/
def Hub.GetClient (h : Hub) (token : String) : Option Client :=
  mapLookup h.Clients token

/-- Go `Hub.RemoveRoom`. -/
def Hub.RemoveRoom (h : Hub) (roomID : String) : Hub :=
  { h with Rooms := mapErase h.Rooms roomID }

/-- Errors of the `handleEndChat` handler before the branch on who ended
the chat: missing/unknown token (401) and unknown room (404). -/
inductive EndChatError
  | invalidToken
  | roomNotFound
deriving DecidableEq

/-- Core of Go `handleEndChat` (after JSON decoding): resolve the caller
token, fetch the room, then branch — if the caller token equals the room
customer's token the room is closed and removed (reason `customer_left`);
on every other valid token the agent-left path runs: status `closing`,
agent cleared, a 5-minute close deadline scheduled (reason
`agent_left`).  Returns the reason and the updated hub. -/
def Hub.EndChat (h : Hub) (token : String) (roomID : String) :
    Except EndChatError (String × Hub) :=
  match mapLookup h.Clients token with
  | none => .error .invalidToken
  | some _ =>
    match mapLookup h.Rooms roomID with
    | none => .error .roomNotFound
    | some room =>
      if customerTokenIs room token then
        .ok ("customer_left", h.RemoveRoom roomID)
      else
        let room' := { room with Status := .closing, Agent := none, CloseTimer := true }
        .ok ("agent_left", { h with Rooms := mapInsert h.Rooms roomID room' })

/-- The effect of the `time.AfterFunc` closure scheduled by
`handleEndChat`'s agent-left path when it fires: it unconditionally sets
the captured room's status to `closed` and removes it from the hub — the
source performs no re-check that the status is still `closing`. -/
def fireCloseTimer (h : Hub) (room : Room) : Hub × Room :=
  (h.RemoveRoom room.ID, { room with Status := .closed })

/-- The closing-room reopen step of the WebSocket read loop (Go
`handleWebSocket`): if the room is `closing` and the sender is its
customer, stop and clear the close timer and set the status back to
`waiting`; otherwise no change. -/
def reopenIfClosing (room : Room) (senderToken : String) : Room :=
  if room.Status = .closing ∧ customerTokenIs room senderToken = true then
    { room with CloseTimer := false, Status := .waiting }
  else room

/-- What one iteration of the WebSocket read loop did with an inbound
(successfully decoded) message. -/
inductive StepOutcome
  | rateLimited
  | closedRejected
  | recordedOnly
  | delivered (msg : ChatMessage)
deriving DecidableEq

/-- `true` when the iteration ends in `continue` (await the next message),
`false` when it ends in `break` (terminate the connection). -/
def StepOutcome.continuesLoop : StepOutcome → Bool
  | .closedRejected => false
  | _ => true

/-- `true` when the iteration wrote an error notice back to the sender. -/
def StepOutcome.sendsErrorNotice : StepOutcome → Bool
  | .rateLimited => true
  | .closedRejected => true
  | _ => false

/-- The state after one iteration of the read loop: limiter, room, sender
(whose language may have been detected), translator cache, and the
outcome. -/
structure StepResult where
  rl : RateLimiter
  room : Room
  sender : Client
  translator : Translator
  outcome : StepOutcome

/-- One iteration of the Go `handleWebSocket` read loop on a decoded
inbound message: rate-limit check (rejection sends an error notice and
continues without recording), append to history, closed-room rejection
(error notice, break), the closing-to-waiting customer reopen, then — if
the recipient fixed at connect time has a live connection — prepare
(detect/translate) and deliver the outbound record.  Delivery failures do
not alter state.  In the source the room, the sender and the hub entries
alias one object; claims proved here never read the aliased copies. -/
def routerStep (rl : RateLimiter) (t : Translator) (gen : String → Option String)
    (room : Room) (sender : Client) (recipient : Option Client)
    (now : Int) (content : String) : StepResult :=
  match rl.Allow sender.Token now with
  | (false, rl') => { rl := rl', room := room, sender := sender, translator := t,
                      outcome := .rateLimited }
  | (true, rl') =>
    let room1 := { room with Messages := room.Messages ++
      [{ Type_ := "message", RoomID := room.ID, From := sender.Name,
         Content := content, TranslatedContent := "" }] }
    if room1.Status = .closed then
      { rl := rl', room := room1, sender := sender, translator := t,
        outcome := .closedRejected }
    else
      let room2 := reopenIfClosing room1 sender.Token
      match recipient with
      | none => { rl := rl', room := room2, sender := sender, translator := t,
                  outcome := .recordedOnly }
      | some rcpt =>
        if rcpt.Connection = false then
          { rl := rl', room := room2, sender := sender, translator := t,
            outcome := .recordedOnly }
        else
          match prepareMessage t gen now room2 sender rcpt content with
          | (msg, sender', t') =>
            { rl := rl', room := room2, sender := sender', translator := t',
              outcome := .delivered msg }

/-- Hub states reachable from startup through the modeled operations:
client registration, room creation (`handleStartChat`), an agent joining
(`handleJoinRoom`), either side ending the chat (`handleEndChat`), and one
read-loop iteration of the WebSocket router acting on a room present in
the hub (which covers the closing-to-waiting reopen). -/
inductive Reaches : Hub → Prop
  | init : Reaches NewHub
  | addClient (h : Hub) (c : Client) : Reaches h → Reaches (h.AddClient c)
  | createRoom (h : Hub) (roomID : String) (c : Client) :
      Reaches h → Reaches (h.CreateRoom roomID c).2
  | joinRoom (h : Hub) (roomID : String) (a : Client) (r : Room) (h' : Hub) :
      Reaches h → h.JoinRoom roomID a = .ok (r, h') → Reaches h'
  | endChat (h : Hub) (token roomID reason : String) (h' : Hub) :
      Reaches h → h.EndChat token roomID = .ok (reason, h') → Reaches h'
  | router (h : Hub) (roomID : String) (room : Room) (rl : RateLimiter) (t : Translator)
      (gen : String → Option String) (sender : Client) (recipient : Option Client)
      (now : Int) (content : String) :
      Reaches h → mapLookup h.Rooms roomID = some room →
      Reaches { h with
        Rooms := mapInsert h.Rooms roomID
          (routerStep rl t gen room sender recipient now content).room }

/-- Lifecycle invariant of a single room: in `waiting` or `closing` the
agent slot is empty. -/
def roomLifecycleInv (r : Room) : Prop :=
  (r.Status = .waiting ∨ r.Status = .closing) → r.Agent = none

/-- `routerStep` only appends to the history and possibly performs the
closing-to-waiting reopen: the agent slot is untouched and the status
either stays or moves from `closing` to `waiting`. -/
theorem routerStep_room (rl : RateLimiter) (t : Translator) (gen : String → Option String)
    (room : Room) (sender : Client) (recipient : Option Client) (now : Int) (content : String) :
    (routerStep rl t gen room sender recipient now content).room.Agent = room.Agent ∧
    ((routerStep rl t gen room sender recipient now content).room.Status = room.Status ∨
      ((routerStep rl t gen room sender recipient now content).room.Status = .waiting ∧
        room.Status = .closing)) := by
  rcases hA : rl.Allow sender.Token now with ⟨b, rl'⟩
  cases b
  · simp [routerStep, hA]
  · have hre : ∀ r1 : Room, (reopenIfClosing r1 sender.Token).Agent = r1.Agent ∧
        ((reopenIfClosing r1 sender.Token).Status = r1.Status ∨
          ((reopenIfClosing r1 sender.Token).Status = .waiting ∧ r1.Status = .closing)) := by
      intro r1
      by_cases hc : r1.Status = .closing ∧ customerTokenIs r1 sender.Token = true
      · simp [reopenIfClosing, hc]
      · simp [reopenIfClosing, hc]
    by_cases hcl : room.Status = RoomStatus.closed
    · simp [routerStep, hA, hcl]
    · cases recipient with
      | none => simpa [routerStep, hA, hcl] using hre _
      | some rcpt =>
        by_cases hconn : rcpt.Connection = false
        · simpa [routerStep, hA, hcl, hconn] using hre _
        · rcases hp : prepareMessage t gen now
            (reopenIfClosing { room with Messages := room.Messages ++
              [{ Type_ := "message", RoomID := room.ID, From := sender.Name,
                 Content := content, TranslatedContent := "" }] } sender.Token)
            sender rcpt content with ⟨msg, sender', t'⟩
          simpa [routerStep, hA, hcl, hconn, hp] using hre _

theorem reaches_roomLifecycleInv (h : Hub) (hr : Reaches h) :
    ∀ p ∈ h.Rooms, roomLifecycleInv p.2 := by
  induction hr with
  | init => intro p hp; simp [NewHub] at hp
  | addClient h c _ ih => intro p hp; exact ih p hp
  | createRoom h roomID c _ ih =>
    intro p hp
    simp only [Hub.CreateRoom] at hp
    rcases mem_mapInsert hp with rfl | hp
    · intro _; rfl
    · exact ih p hp
  | joinRoom h roomID a r h' _ heq ih =>
    intro p hp
    simp only [Hub.JoinRoom] at heq
    split at heq
    · exact absurd heq (by simp)
    · split at heq
      · exact absurd heq (by simp)
      · split at heq
        · exact absurd heq (by simp)
        · split at heq
          · exact absurd heq (by simp)
          · rw [Except.ok.injEq, Prod.mk.injEq] at heq
            rw [← heq.2] at hp
            rcases mem_mapInsert hp with rfl | hp
            · intro hst; rcases hst with hst | hst <;> simp at hst
            · exact ih p hp
  | endChat h token roomID reason h' _ heq ih =>
    intro p hp
    simp only [Hub.EndChat] at heq
    split at heq
    · exact absurd heq (by simp)
    · split at heq
      · exact absurd heq (by simp)
      · split at heq
        · rw [Except.ok.injEq, Prod.mk.injEq] at heq
          rw [← heq.2] at hp
          exact ih p (mem_mapErase hp)
        · rw [Except.ok.injEq, Prod.mk.injEq] at heq
          rw [← heq.2] at hp
          rcases mem_mapInsert hp with rfl | hp
          · intro _; rfl
          · exact ih p hp
  | router h roomID room rl t gen sender recipient now content _ hlk ih =>
    intro p hp
    rcases mem_mapInsert hp with rfl | hp
    · have hinv := ih _ (mapLookup_mem hlk)
      rcases routerStep_room rl t gen room sender recipient now content with ⟨hag, hst⟩
      intro hwc
      rcases hst with hst | ⟨_, hc⟩
      · rw [hag]; exact hinv (by rw [← hst]; exact hwc)
      · rw [hag]; exact hinv (Or.inr hc)
    · exact ih p hp

/-- Claim C10: on every hub reachable through createRoom, joinRoom,
endRoom and the router's closing-to-waiting reopen step, a room whose
status is `waiting` has an empty agent slot, and consequently
`Hub.JoinRoom` can never return the `AlreadyOccupied` error. -/
theorem C10_waitingNoAgent (h : Hub) (hr : Reaches h) :
    (∀ p ∈ h.Rooms, p.2.Status = .waiting → p.2.Agent = none) ∧
    (∀ (roomID : String) (agent : Client),
      h.JoinRoom roomID agent ≠ .error .alreadyOccupied) := by
  have hinv := reaches_roomLifecycleInv h hr
  constructor
  · intro p hp hw
    exact hinv p hp (Or.inl hw)
  · intro roomID agent hcontra
    rcases e : mapLookup h.Rooms roomID with _ | room
    · simp [Hub.JoinRoom, e] at hcontra
    · by_cases hw : room.Status = .waiting
      · have hag : room.Agent = none := hinv _ (mapLookup_mem e) (Or.inl hw)
        cases hcu : room.Customer <;> simp [Hub.JoinRoom, e, hw, hag, hcu] at hcontra
      · simp [Hub.JoinRoom, e, hw] at hcontra

/-- Witness for C10 at the initial hub. -/
theorem C10_witness :
    NewHub.JoinRoom "r1" (NewClient "w10" "Bo" "en") ≠ .error .alreadyOccupied :=
  (C10_waitingNoAgent NewHub Reaches.init).2 "r1" (NewClient "w10" "Bo" "en")

/-- `true` iff the referenced participant (when present) is registered in
the hub's client map. -/
def clientRegistered (h : Hub) (oc : Option Client) : Bool :=
  match oc with
  | some c => (mapLookup h.Clients c.Token).isSome
  | none => true

/-- The Registry invariant of the spec: every room's customer and agent,
when set, have a corresponding participant entry. -/
def hubInvariant (h : Hub) : Prop :=
  ∀ p ∈ h.Rooms, clientRegistered h p.2.Customer = true ∧ clientRegistered h p.2.Agent = true

instance (h : Hub) : Decidable (hubInvariant h) :=
  inferInstanceAs (Decidable (∀ p ∈ h.Rooms,
    clientRegistered h p.2.Customer = true ∧ clientRegistered h p.2.Agent = true))

/-- Registered customer "Alice" used by the C7 scenario. -/
def cAlice : Client := NewClient "ct" "Alice" ""

/-- Hub for the C7 counterexample: register Alice, create her room, then
call `RemoveClient` on her token.  The room still references the token but
the participant entry is gone. -/
def hubC7 : Hub :=
  (((NewHub.AddClient cAlice).CreateRoom "room_x" cAlice).2).RemoveClient "ct"

/-- Counterexample to claim C7 as stated: `RemoveClient`
(`removeParticipant`) does not preserve the Registry invariant — it
deletes the participant entry without clearing the room that references
the token. -/
theorem C7_counterexample : ¬ hubInvariant hubC7 := by decide

/-- Claim C7 (amended): `CreateRoom` with a registered customer and
`JoinRoom` with a registered agent preserve the Registry invariant (all
call sites in the source register the participant first);
`RemoveClient` does not preserve it. -/
theorem C7_amended (h : Hub) (hinv : hubInvariant h) :
    (∀ (roomID : String) (cust : Client),
      (mapLookup h.Clients cust.Token).isSome = true →
      hubInvariant (h.CreateRoom roomID cust).2) ∧
    (∀ (roomID : String) (agent : Client) (r' : Room) (h' : Hub),
      (mapLookup h.Clients agent.Token).isSome = true →
      h.JoinRoom roomID agent = .ok (r', h') → hubInvariant h') := by
  constructor
  · intro roomID cust hcreg p hp
    simp only [Hub.CreateRoom] at hp
    rcases mem_mapInsert hp with rfl | hp
    · exact ⟨by simpa [clientRegistered, NewRoom] using hcreg,
        by simp [clientRegistered, NewRoom]⟩
    · exact hinv p hp
  · intro roomID agent r' h' hareg heq
    simp only [Hub.JoinRoom] at heq
    split at heq
    · exact absurd heq (by simp)
    case _ room e =>
      split at heq
      · exact absurd heq (by simp)
      · split at heq
        · exact absurd heq (by simp)
        · split at heq
          · exact absurd heq (by simp)
          · rw [Except.ok.injEq, Prod.mk.injEq] at heq
            obtain ⟨hr', hh'⟩ := heq
            subst hh'
            intro p hp
            rcases mem_mapInsert hp with rfl | hp
            · refine ⟨?_, by simpa [clientRegistered] using hareg⟩
              have hcu := (hinv _ (mapLookup_mem e)).1
              simpa [clientRegistered] using hcu
            · exact hinv p hp

/-- Witness for C7 (amended): creating Alice's room on the hub where she
is registered keeps the invariant. -/
theorem C7_witness : hubInvariant ((NewHub.AddClient cAlice).CreateRoom "room_x" cAlice).2 :=
  (C7_amended (NewHub.AddClient cAlice) (by decide)).1 "room_x" cAlice (by decide)

/-- Claim C9: an endRoom request with a valid participant token whose
token is not the room customer's token always takes the agent-left path —
status `closing`, agent slot cleared, close deadline scheduled — with no
check that the caller is the room's agent or a member at all, and no
check of the room's current status. -/
theorem C9_endChatAgentPath (h : Hub) (token roomID : String) (caller : Client) (room : Room)
    (hc : mapLookup h.Clients token = some caller)
    (hr : mapLookup h.Rooms roomID = some room)
    (hnc : customerTokenIs room token = false) :
    h.EndChat token roomID =
      .ok ("agent_left", { h with
        Rooms := mapInsert h.Rooms roomID
          { room with Status := .closing, Agent := none, CloseTimer := true } }) := by
  simp [Hub.EndChat, hc, hr, hnc]

/-- Hub for the C9 witness: a registered stranger "Eve" and a waiting room
belonging to "Ann" (Eve is not a member of it). -/
def hubC9 : Hub :=
  ((NewHub.AddClient (NewClient "s9" "Eve" "en")).CreateRoom "r9" (NewClient "c9" "Ann" "")).2

/-- Witness for C9: Eve, not a member, ends Ann's waiting room — the
agent-left path runs anyway. -/
theorem C9_witness :
    hubC9.EndChat "s9" "r9" =
      .ok ("agent_left", { hubC9 with
        Rooms := mapInsert hubC9.Rooms "r9"
          { NewRoom "r9" (NewClient "c9" "Ann" "") with
            Status := .closing, Agent := none, CloseTimer := true } }) :=
  C9_endChatAgentPath hubC9 "s9" "r9" (NewClient "s9" "Eve" "en")
    (NewRoom "r9" (NewClient "c9" "Ann" "")) (by decide) (by decide) (by decide)

/-- Claim C2: `Hub.JoinRoom` fails with NotFound exactly when the room id
is unknown; on a known room it fails with InvalidState exactly when the
status is not waiting, with AlreadyOccupied exactly when (waiting and) an
agent is already assigned, with MissingCustomer exactly when (waiting,
agentless and) the customer is absent; when none of the failure
conditions holds it assigns the agent and activates the room, and it
succeeds exactly in that case. -/
theorem C2_joinRoom (h : Hub) (roomID : String) (agent : Client) :
    (mapLookup h.Rooms roomID = none ↔ h.JoinRoom roomID agent = .error .notFound) ∧
    (∀ room, mapLookup h.Rooms roomID = some room →
      ((room.Status ≠ .waiting ↔ h.JoinRoom roomID agent = .error .invalidState) ∧
       (room.Status = .waiting ∧ room.Agent ≠ none ↔
         h.JoinRoom roomID agent = .error .alreadyOccupied) ∧
       (room.Status = .waiting ∧ room.Agent = none ∧ room.Customer = none ↔
         h.JoinRoom roomID agent = .error .missingCustomer) ∧
       (room.Status = .waiting ∧ room.Agent = none ∧ room.Customer ≠ none →
         h.JoinRoom roomID agent =
           .ok ({ room with Agent := some agent, Status := .active },
             { h with
               Rooms := mapInsert h.Rooms roomID
                          { room with Agent := some agent, Status := .active } })))) ∧
    ((∃ r' h', h.JoinRoom roomID agent = .ok (r', h')) ↔
      ∃ room, mapLookup h.Rooms roomID = some room ∧ room.Status = .waiting ∧
        room.Agent = none ∧ room.Customer ≠ none) := by
  cases e : mapLookup h.Rooms roomID with
  | none =>
    have hj : h.JoinRoom roomID agent = .error .notFound := by
      simp only [Hub.JoinRoom, e]
    refine ⟨by simp [e, hj], ?_, ?_⟩
    · intro room e'
      simp at e'
    · constructor
      · rintro ⟨r', h', hok⟩
        rw [hj] at hok
        simp at hok
      · rintro ⟨room, hlk, _⟩
        simp at hlk
  | some room =>
    by_cases hw : room.Status = .waiting
    · cases hag : room.Agent with
      | some a0 =>
        have hj : h.JoinRoom roomID agent = .error .alreadyOccupied := by
          simp only [Hub.JoinRoom, e]
          rw [if_neg (by simp [hw]), if_pos (by simp [hag])]
        refine ⟨by simp [e, hj], ?_, ?_⟩
        · intro room' e'
          have hrr : room = room' := Option.some.inj e'
          subst hrr
          refine ⟨by simp [hj, hw], by simp [hj, hw, hag], by simp [hj, hag], ?_⟩
          intro hcond
          rw [hcond.2.1] at hag
          simp at hag
        · constructor
          · rintro ⟨r', h', hok⟩
            rw [hj] at hok
            simp at hok
          · rintro ⟨room', hlk, hcond⟩
            have hrr : room = room' := Option.some.inj hlk
            subst hrr
            rw [hcond.2.1] at hag
            simp at hag
      | none =>
        cases hcu : room.Customer with
        | none =>
          have hj : h.JoinRoom roomID agent = .error .missingCustomer := by
            simp only [Hub.JoinRoom, e]
            rw [if_neg (by simp [hw]), if_neg (by simp [hag]), if_pos (by simp [hcu])]
          refine ⟨by simp [e, hj], ?_, ?_⟩
          · intro room' e'
            have hrr : room = room' := Option.some.inj e'
            subst hrr
            refine ⟨by simp [hj, hw], by simp [hj, hag], by simp [hj, hw, hag, hcu], ?_⟩
            intro hcond
            rw [hcu] at hcond
            simp at hcond
          · constructor
            · rintro ⟨r', h', hok⟩
              rw [hj] at hok
              simp at hok
            · rintro ⟨room', hlk, hcond⟩
              have hrr : room = room' := Option.some.inj hlk
              subst hrr
              rw [hcu] at hcond
              simp at hcond
        | some c0 =>
          have hj : h.JoinRoom roomID agent =
              .ok ({ room with Agent := some agent, Status := .active },
                { h with
                  Rooms := mapInsert h.Rooms roomID
                             { room with Agent := some agent, Status := .active } }) := by
            simp only [Hub.JoinRoom, e]
            rw [if_neg (by simp [hw]), if_neg (by simp [hag]), if_neg (by simp [hcu])]
          refine ⟨by simp [e, hj], ?_, ?_⟩
          · intro room' e'
            have hrr : room = room' := Option.some.inj e'
            subst hrr
            refine ⟨by simp [hj, hw], by simp [hj, hag], by simp [hj, hcu], ?_⟩
            intro _
            exact hj
          · constructor
            · intro _
              exact ⟨room, rfl, hw, hag, by simp [hcu]⟩
            · intro _
              exact ⟨_, _, hj⟩
    · have hj : h.JoinRoom roomID agent = .error .invalidState := by
        simp only [Hub.JoinRoom, e]
        rw [if_pos (by simp [hw])]
      refine ⟨by simp [e, hj], ?_, ?_⟩
      · intro room' e'
        have hrr : room = room' := Option.some.inj e'
        subst hrr
        refine ⟨by simp [hj, hw], by simp [hj, hw], by simp [hj, hw], ?_⟩
        intro hcond
        exact absurd hcond.1 hw
      · constructor
        · rintro ⟨r', h', hok⟩
          rw [hj] at hok
          simp at hok
        · rintro ⟨room', hlk, hcond⟩
          have hrr : room = room' := Option.some.inj hlk
          subst hrr
          exact absurd hcond.1 hw

/-- Customer and agent of the C2 witness scenario. -/
def custC2 : Client := NewClient "c2c" "Ann" ""

/-- Agent of the C2 witness scenario. -/
def agentC2 : Client := NewClient "c2a" "Bo" "en"

/-- Hub of the C2 witness scenario: one freshly created waiting room. -/
def hubC2 : Hub := (NewHub.CreateRoom "r2" custC2).2

/-- Witness for C2: joining the fresh waiting room succeeds, assigning the
agent and activating the room. -/
theorem C2_witness :
    hubC2.JoinRoom "r2" agentC2 =
      .ok ({ NewRoom "r2" custC2 with Agent := some agentC2, Status := .active },
        { hubC2 with
          Rooms := mapInsert hubC2.Rooms "r2"
                     { NewRoom "r2" custC2 with Agent := some agentC2, Status := .active } }) :=
  (((C2_joinRoom hubC2 "r2" agentC2).2.1 (NewRoom "r2" custC2) (by decide)).2.2.2)
    ⟨by decide, by decide, by decide⟩

/-- Counterexample to claim C3 as stated: the claim prunes only timestamps
strictly older than the cutoff, so on a limiter with max=1, window=60 and
one timestamp recorded exactly at the cutoff instant (0 = 60 - 60) it
keeps the timestamp, reaches the maximum and must return false; the
source's `Allow` keeps only timestamps strictly after the cutoff, drops
it, and returns true. -/
theorem C3_counterexample :
    (RateLimiter.Allow rl0 "id" 60).1 = true ∧ (allowSpec rl0 "id" 60).1 = false :=
  ⟨by decide, by decide⟩

/-- Claim C3 (amended — "older than the cutoff" corrected to "at or older
than the cutoff", i.e. only strictly newer timestamps survive): each
`Allow` call prunes the identity's timestamps to those strictly after
`now - window`, returns false persisting exactly the pruned set when the
surviving count is at or above the maximum, otherwise appends `now` and
returns true; other identities are untouched.  With max=3 and window=60,
three quick calls are admitted, a fourth is rejected, and a call after the
window has elapsed is admitted again. -/
theorem C3_amended (r : RateLimiter) (token : String) (now : Int) :
    ((r.Allow token now).1 = true ↔
      ((r.limits token).filter (fun x => decide (now - r.window < x))).length < r.maxMessages) ∧
    ((r.Allow token now).1 = false →
      (r.Allow token now).2.limits token =
        (r.limits token).filter (fun x => decide (now - r.window < x))) ∧
    ((r.Allow token now).1 = true →
      (r.Allow token now).2.limits token =
        (r.limits token).filter (fun x => decide (now - r.window < x)) ++ [now]) ∧
    (∀ t', t' ≠ token → (r.Allow token now).2.limits t' = r.limits t') ∧
    (((NewRateLimiter 3 60).Allow "u" 0).1 = true ∧
      ((((NewRateLimiter 3 60).Allow "u" 0).2.Allow "u" 1).1 = true ∧
        (((((NewRateLimiter 3 60).Allow "u" 0).2.Allow "u" 1).2.Allow "u" 2).1 = true ∧
          ((((((NewRateLimiter 3 60).Allow "u" 0).2.Allow "u" 1).2.Allow "u" 2).2.Allow "u" 3).1 = false ∧
            (((((((NewRateLimiter 3 60).Allow "u" 0).2.Allow "u" 1).2.Allow "u" 2).2.Allow "u" 3).2.Allow "u" 63).1 = true))))) := by
  by_cases hm : r.maxMessages ≤ ((r.limits token).filter (fun x => decide (now - r.window < x))).length
  · refine ⟨?_, ?_, ?_, ?_, by decide, by decide, by decide, by decide, by decide⟩
    · simp [RateLimiter.Allow, hm, Nat.not_lt.mpr hm]
    · intro _
      simp [RateLimiter.Allow, hm]
    · intro hcontra
      simp [RateLimiter.Allow, hm] at hcontra
    · intro t' ht'
      simp [RateLimiter.Allow, hm, ht']
  · refine ⟨?_, ?_, ?_, ?_, by decide, by decide, by decide, by decide, by decide⟩
    · simp [RateLimiter.Allow, hm, Nat.lt_of_not_le hm]
    · intro hcontra
      simp [RateLimiter.Allow, hm] at hcontra
    · intro _
      simp [RateLimiter.Allow, hm]
    · intro t' ht'
      simp [RateLimiter.Allow, hm, ht']

/-- Claim C4: a cached (source, target, text) entry whose age does not
exceed the TTL is returned without invoking the external translator and
without touching the state; an entry older than the TTL is treated as a
miss at read time (lazy expiry), as is a never-stored key — both invoke
the external translator; and after a successful translation is stored, a
later lookup of the same key within the TTL returns the stored value with
no external call, whatever the external translator would now answer. -/
theorem C4_cache (t : Translator) (gen gen' : String → Option String) (now now' : Int)
    (text fromLanguage toLanguage : String) :
    (t.cache (cacheKey text fromLanguage toLanguage) = none →
      (t.Translate gen now text fromLanguage toLanguage).2.2 = true) ∧
    (∀ e, t.cache (cacheKey text fromLanguage toLanguage) = some e →
      now - e.createdAt ≤ t.cacheTTL →
      t.Translate gen now text fromLanguage toLanguage = (some e.text, t, false)) ∧
    (∀ e, t.cache (cacheKey text fromLanguage toLanguage) = some e →
      now - e.createdAt > t.cacheTTL →
      (t.Translate gen now text fromLanguage toLanguage).2.2 = true) ∧
    (∀ s, t.cache (cacheKey text fromLanguage toLanguage) = none →
      gen (translationPrompt text fromLanguage toLanguage) = some s →
      now' - now ≤ t.cacheTTL →
      (t.Translate gen now text fromLanguage toLanguage).2.1.Translate gen' now' text fromLanguage toLanguage =
        (some s, (t.Translate gen now text fromLanguage toLanguage).2.1, false)) := by
  refine ⟨?_, ?_, ?_, ?_⟩
  · intro hnone
    cases hg : gen (translationPrompt text fromLanguage toLanguage) <;>
      simp [Translator.Translate, hnone, hg]
  · intro e he hyoung
    simp [Translator.Translate, he, not_lt.mpr hyoung]
  · intro e he hold
    cases hg : gen (translationPrompt text fromLanguage toLanguage) <;>
      simp [Translator.Translate, he, hold, hg]
  · intro s hnone hg hyoung
    have h1 : t.Translate gen now text fromLanguage toLanguage =
        (some s,
          { t with
            cache := fun k =>
              if k = cacheKey text fromLanguage toLanguage then
                some { text := s, createdAt := now }
              else t.cache k },
          true) := by
      simp [Translator.Translate, hnone, hg]
    rw [h1]
    simp [Translator.Translate, not_lt.mpr hyoung]

/-- Witness for C4: store "hola" for (en, es, "hi") at time 0, then look
it up at time 500 (TTL 600) against a broken external translator — the
cached value is returned without any external call. -/
theorem C4_witness :
    ((NewTranslator 600).Translate (fun _ => some "hola") 0 "hi" "en" "es").2.1.Translate
        (fun _ => none) 500 "hi" "en" "es" =
      (some "hola", ((NewTranslator 600).Translate (fun _ => some "hola") 0 "hi" "en" "es").2.1,
        false) :=
  (C4_cache (NewTranslator 600) (fun _ => some "hola") (fun _ => none) 0 500 "hi" "en" "es").2.2.2
    "hola" rfl rfl (by decide)

/-- Active room used by the C1 scenario: customer Alice (Portuguese),
agent Bob (English). -/
def roomC1 : Room :=
  { ID := "r", Customer := some (NewClient "ct" "Alice" "pt"),
    Agent := some (NewClient "at" "Bob" "en"), Status := .active,
    Messages := [], CloseTimer := false }

/-- Counterexample to claim C1 as stated: with customer Alice (pt) sending
to agent Bob (en) and a translator answering "hello", the outbound
record's optional translated content IS populated although the recipient
is the agent, not the customer. -/
theorem C1_counterexample :
    (prepareMessage (NewTranslator 600) (fun _ => some "hello") 0 roomC1
        (NewClient "ct" "Alice" "pt") (NewClient "at" "Bob" "en") "ola").1.TranslatedContent =
      "hello" ∧
    roomC1.isCustomer (NewClient "at" "Bob" "en") = false :=
  ⟨by decide, by decide⟩

theorem prepareMessageBody_spec (t : Translator) (gen : String → Option String) (now : Int)
    (room : Room) (s recipient : Client) (content : String) :
    (prepareMessageBody t gen now room s recipient content).2.1 = s ∧
    ((prepareMessageBody t gen now room s recipient content).1.TranslatedContent ≠ "" →
      room.isCustomer recipient = false ∧ s.Language ≠ "" ∧ recipient.Language ≠ "" ∧
        s.Language ≠ recipient.Language) ∧
    (room.isCustomer recipient = false →
      (prepareMessageBody t gen now room s recipient content).1.Content = content) ∧
    (room.isCustomer recipient = true →
      (prepareMessageBody t gen now room s recipient content).1.TranslatedContent = "" ∧
      ((prepareMessageBody t gen now room s recipient content).1.Content = content ∨
        ∃ tr, (t.Translate gen now content s.Language recipient.Language).1 = some tr ∧
          (prepareMessageBody t gen now room s recipient content).1.Content = trimSpace tr)) := by
  refine ⟨?_, ?_, ?_, ?_⟩ <;>
    by_cases hskip : s.Language = "" ∨ recipient.Language = "" ∨ s.Language = recipient.Language <;>
    first
      | (simp [prepareMessageBody, if_pos hskip]; done)
      | (rcases hT : t.Translate gen now content s.Language recipient.Language with ⟨res, t', b⟩
         cases res with
         | none => simp [prepareMessageBody, if_neg hskip, hT]
         | some tr =>
           by_cases hrc : room.isCustomer recipient = true
           · simp [prepareMessageBody, if_neg hskip, hT, if_pos hrc, hrc]
           · have hskip' := hskip
             push_neg at hskip'
             simp [prepareMessageBody, if_neg hskip, hT, if_neg hrc, hrc,
               hskip'.1, hskip'.2.1, hskip'.2.2])

/-- Claim C1 (amended — the optional translated field belongs to the
AGENT's view, not the customer's): the outbound record's translated field
is populated only when the recipient is the agent and the (possibly
just-detected) sender language and the recipient language are both known
and differ; the agent always receives the original content; the customer
never receives the translated field and sees either the translated text
as the content (when translation happened) or the original content. -/
theorem C1_amended (t : Translator) (gen : String → Option String) (now : Int)
    (room : Room) (sender recipient : Client) (content : String) :
    ((prepareMessage t gen now room sender recipient content).1.TranslatedContent ≠ "" →
      room.isCustomer recipient = false ∧
      (prepareMessage t gen now room sender recipient content).2.1.Language ≠ "" ∧
      recipient.Language ≠ "" ∧
      (prepareMessage t gen now room sender recipient content).2.1.Language ≠
        recipient.Language) ∧
    (room.isCustomer recipient = false →
      (prepareMessage t gen now room sender recipient content).1.Content = content) ∧
    (room.isCustomer recipient = true →
      (prepareMessage t gen now room sender recipient content).1.TranslatedContent = "" ∧
      ((prepareMessage t gen now room sender recipient content).1.Content = content ∨
        ∃ tr, (t.Translate gen now content
            (prepareMessage t gen now room sender recipient content).2.1.Language
            recipient.Language).1 = some tr ∧
          (prepareMessage t gen now room sender recipient content).1.Content =
            trimSpace tr)) := by
  by_cases hdet : room.isCustomer sender = true ∧ sender.Language = ""
  · cases hd : Translator.DetectLanguage gen content with
    | none =>
      simp [prepareMessage, if_pos hdet, hd]
    | some lang =>
      simp only [prepareMessage, if_pos hdet, hd]
      rcases prepareMessageBody_spec t gen now room
        { sender with Language := trimSpace lang } recipient content with ⟨h21, hTC, hCF, hCT⟩
      rw [h21]
      exact ⟨hTC, hCF, hCT⟩
  · simp only [prepareMessage, if_neg hdet]
    rcases prepareMessageBody_spec t gen now room sender recipient content with
      ⟨h21, hTC, hCF, hCT⟩
    rw [h21]
    exact ⟨hTC, hCF, hCT⟩

/-- Witness for C1 (amended): agent Bob sends to customer Alice; the
delivered record's translated field is empty (the customer never sees
it). -/
theorem C1_witness :
    (prepareMessage (NewTranslator 600) (fun _ => some "oi") 0 roomC1
        (NewClient "at" "Bob" "en") (NewClient "ct" "Alice" "pt") "hi").1.TranslatedContent =
      "" :=
  ((C1_amended (NewTranslator 600) (fun _ => some "oi") 0 roomC1
      (NewClient "at" "Bob" "en") (NewClient "ct" "Alice" "pt") "hi").2.2 (by decide)).1

theorem routerStep_room_admitted (rl : RateLimiter) (t : Translator)
    (gen : String → Option String) (room : Room) (sender : Client)
    (recipient : Option Client) (now : Int) (content : String)
    (hadm : (rl.Allow sender.Token now).1 = true) (hncl : room.Status ≠ .closed) :
    (routerStep rl t gen room sender recipient now content).room =
      reopenIfClosing { room with Messages := room.Messages ++
        [{ Type_ := "message", RoomID := room.ID, From := sender.Name,
           Content := content, TranslatedContent := "" }] } sender.Token := by
  rcases hA : rl.Allow sender.Token now with ⟨b, rl'⟩
  rw [hA] at hadm
  have hb : b = true := hadm
  subst hb
  cases recipient with
  | none => simp [routerStep, hA, hncl]
  | some rcpt =>
    by_cases hconn : rcpt.Connection = false
    · simp [routerStep, hA, hncl, hconn]
    · rcases hp : prepareMessage t gen now
        (reopenIfClosing { room with Messages := room.Messages ++
          [{ Type_ := "message", RoomID := room.ID, From := sender.Name,
             Content := content, TranslatedContent := "" }] } sender.Token)
        sender rcpt content with ⟨msg, sender', t'⟩
      simp [routerStep, hA, hncl, hconn, hp]

/-- Claim C5: when the room is `closing` and its customer sends a message
the rate limiter admits, the read-loop iteration cancels and clears the
close deadline and sets the status back to `waiting` (agent and customer
slots untouched), after which — the agent slot being empty on this path —
any hub holding the resulting room lets a new agent join successfully. -/
theorem C5_reopen (rl : RateLimiter) (t : Translator) (gen : String → Option String)
    (room : Room) (sender : Client) (recipient : Option Client) (now : Int) (content : String)
    (hadm : (rl.Allow sender.Token now).1 = true)
    (hst : room.Status = .closing)
    (hcust : customerTokenIs room sender.Token = true) :
    (routerStep rl t gen room sender recipient now content).room.Status = .waiting ∧
    (routerStep rl t gen room sender recipient now content).room.CloseTimer = false ∧
    (routerStep rl t gen room sender recipient now content).room.Agent = room.Agent ∧
    (routerStep rl t gen room sender recipient now content).room.Customer = room.Customer ∧
    (room.Agent = none →
      ∀ (rid : String) (hb : Hub) (agent : Client),
        mapLookup hb.Rooms rid =
          some (routerStep rl t gen room sender recipient now content).room →
        ∃ r' h', hb.JoinRoom rid agent = .ok (r', h')) := by
  rcases hcu : room.Customer with _ | cu
  · rw [customerTokenIs, hcu] at hcust
    simp at hcust
  · have hncl : room.Status ≠ .closed := by rw [hst]; simp
    have hroom := routerStep_room_admitted rl t gen room sender recipient now content hadm hncl
    have hre : reopenIfClosing { room with Messages := room.Messages ++
        [{ Type_ := "message", RoomID := room.ID, From := sender.Name,
           Content := content, TranslatedContent := "" }] } sender.Token =
        { room with
          Messages := room.Messages ++
            [{ Type_ := "message", RoomID := room.ID, From := sender.Name,
               Content := content, TranslatedContent := "" }],
          CloseTimer := false, Status := .waiting } := by
      rw [reopenIfClosing, if_pos]
      exact ⟨hst, hcust⟩
    rw [hroom, hre]
    refine ⟨rfl, rfl, rfl, hcu, ?_⟩
    intro hag rid hb agent hlk
    simp [Hub.JoinRoom, hlk, hag, hcu]

/-- Closing room of the C5 witness: customer Ann, no agent, deadline
pending. -/
def roomC5 : Room :=
  { ID := "r5", Customer := some (NewClient "c5" "Ann" "pt"), Agent := none,
    Status := .closing, Messages := [], CloseTimer := true }

/-- Witness for C5: Ann's admitted message reopens the closing room and a
new agent can then join it. -/
theorem C5_witness :
    ∃ r' h',
      Hub.JoinRoom
        { Clients := [],
          Rooms := [("r5", (routerStep (NewRateLimiter 10 60) (NewTranslator 600)
            (fun _ => none) roomC5 (NewClient "c5" "Ann" "pt") none 0 "hi").room)] }
        "r5" (NewClient "a5" "Bo" "en") = .ok (r', h') :=
  (C5_reopen (NewRateLimiter 10 60) (NewTranslator 600) (fun _ => none) roomC5
      (NewClient "c5" "Ann" "pt") none 0 "hi" (by decide) (by decide) (by decide)).2.2.2.2
    rfl "r5" _ (NewClient "a5" "Bo" "en") (by decide)

/-- Claim C6: an inbound message rejected by the rate limiter sends the
sender an error notice and is neither recorded in the room's history nor
delivered; the room, the sender and the translator state are unchanged
(only the limiter's pruned set is persisted) and the read loop continues
with the next message. -/
theorem C6_rateLimited (rl : RateLimiter) (t : Translator) (gen : String → Option String)
    (room : Room) (sender : Client) (recipient : Option Client) (now : Int) (content : String)
    (hrej : (rl.Allow sender.Token now).1 = false) :
    (routerStep rl t gen room sender recipient now content).room = room ∧
    (routerStep rl t gen room sender recipient now content).sender = sender ∧
    (routerStep rl t gen room sender recipient now content).translator = t ∧
    (routerStep rl t gen room sender recipient now content).outcome = .rateLimited ∧
    (∀ m, (routerStep rl t gen room sender recipient now content).outcome ≠ .delivered m) ∧
    StepOutcome.sendsErrorNotice
      (routerStep rl t gen room sender recipient now content).outcome = true ∧
    StepOutcome.continuesLoop
      (routerStep rl t gen room sender recipient now content).outcome = true ∧
    (routerStep rl t gen room sender recipient now content).rl =
      (rl.Allow sender.Token now).2 := by
  rcases hA : rl.Allow sender.Token now with ⟨b, rl'⟩
  rw [hA] at hrej
  have hb : b = false := hrej
  subst hb
  simp [routerStep, hA, StepOutcome.sendsErrorNotice, StepOutcome.continuesLoop]

/-- Witness for C6: with an exhausted limiter (max 0), an inbound message
leaves the fresh room's history and state untouched. -/
theorem C6_witness :
    (routerStep (NewRateLimiter 0 60) (NewTranslator 600) (fun _ => none)
        (NewRoom "r6" (NewClient "c6" "Cy" "")) (NewClient "c6" "Cy" "") none 0 "hi").room =
      NewRoom "r6" (NewClient "c6" "Cy" "") :=
  (C6_rateLimited (NewRateLimiter 0 60) (NewTranslator 600) (fun _ => none)
      (NewRoom "r6" (NewClient "c6" "Cy" "")) (NewClient "c6" "Cy" "") none 0 "hi"
      (by decide)).1

/-- Closing room of the C8 race scenario: customer Ann, deadline pending. -/
def roomC8 : Room :=
  { ID := "r8", Customer := some (NewClient "c8" "Ann" "pt"), Agent := none,
    Status := .closing, Messages := [], CloseTimer := true }

/-- Hub holding the reopened version of `roomC8`. -/
def hubC8 : Hub := { Clients := [], Rooms := [("r8", reopenIfClosing roomC8 "c8")] }

/-- Claim C8 (evaluated at the failing interleaving): the customer's
reopen has already set the room back to `waiting`, yet the fired
close-deadline effect — which performs no re-check that the status is
still `closing` — closes the room and removes it from the hub anyway, so
both the reopen and the close take effect. -/
theorem C8_fireIgnoresReopen :
    (reopenIfClosing roomC8 "c8").Status = .waiting ∧
    (fireCloseTimer hubC8 (reopenIfClosing roomC8 "c8")).2.Status = .closed ∧
    mapLookup (fireCloseTimer hubC8 (reopenIfClosing roomC8 "c8")).1.Rooms "r8" = none := by
  exact ⟨by decide, by decide, by decide⟩

/-- Witness for C3 (amended): the limiter state of an identity other than
the caller is untouched by an `Allow` call. -/
theorem C3_witness : (rl0.Allow "id" 60).2.limits "other" = [] :=
  (C3_amended rl0 "id" 60).2.2.2.1 "other" (by decide)
